import Mathlib

/-!
Shallow embedding of the pbrpc core (transport framing, client dialing
loop, context-vars tracing, interceptor composition, policy validation),
translated from the Go source.  Byte streams are lists of naturals below
256; machine integers are modelled as Nat or Int with explicit `% 2 ^ 32`
where overflow matters; fallible operations return an `Option GoError`
or an `Except GoError` result alongside the updated state.
-/

namespace Pbrpc

/-- Errors observable in the modelled fragment.  `transportClosed` and
`packetPayloadTooLarge` are the two sentinel errors declared in
transport.go; `eof` stands for io.EOF; `opError n` stands for a
`*net.OpError` value; `other n` stands for any other non-nil Go error. -/
inductive GoError where
  | transportClosed
  | packetPayloadTooLarge
  | eof
  | opError (n : Nat)
  | other (n : Nat)
deriving DecidableEq, Repr

/-- packetHeaderSize constant from transport.go. -/
def packetHeaderSize : Nat := 4

/-- binary.BigEndian.PutUint32: the four big-endian bytes of a 32-bit
value.  Each byte is reduced mod 256, which makes the encoding agree
with the Go `uint32` truncation for any Nat input. -/
def encode32 (n : Nat) : List Nat :=
  [n / 2 ^ 24 % 256, n / 2 ^ 16 % 256, n / 2 ^ 8 % 256, n % 256]

/-- binary.BigEndian.Uint32: read the first four bytes big-endian. -/
def decode32 (l : List Nat) : Nat :=
  match l with
  | a :: b :: c :: d :: _ => ((a * 256 + b) * 256 + c) * 256 + d
  | _ => 0

theorem decode32_encode32 (n : Nat) (h : n < 2 ^ 32) :
    decode32 (encode32 n) = n := by
  simp only [decode32, encode32]
  omega

theorem length_encode32 (n : Nat) : (encode32 n).length = 4 := rfl

/-- The transport state, from transport.go.  `openness` is the tristate
field (0 uninitialized, 1 open, -1 closed).  The two byte_stream.ByteStream
fields are modelled by their committed data (`inputData`, `outputData`) and
the reserved free read-buffer capacity (`inputBufCap`).  The underlying
net.Conn read side is modelled by `conn`: the list of byte chunks that
successive Read calls will deliver (a Read takes at most `inputBufCap`
bytes from the head chunk and pushes the remainder back). -/
structure Transport where
  openness : Int
  maxPacketPayloadSize : Nat
  inputData : List Nat
  inputBufCap : Nat
  outputData : List Nat
  conn : List (List Nat)
deriving DecidableEq, Repr

/-- transport.isClosed: openness != 1. -/
def Transport.isClosed (t : Transport) : Bool :=
  t.openness != 1

/-- byte_stream.ByteStream.Unwrite(n): drop the last n written bytes. -/
def unwrite (n : Nat) (l : List Nat) : List Nat :=
  l.take (l.length - n)

/-- Overwrite four bytes at offset i with the big-endian encoding of v
(the `binary.BigEndian.PutUint32(packet, uint32(v))` back-patch in
transport.write; the byte-wise mod 256 in encode32 realizes the uint32
truncation). -/
def putUint32At (l : List Nat) (i v : Nat) : List Nat :=
  l.take i ++ encode32 v ++ l.drop (i + 4)

/-- transport.write, from transport.go lines 151-177.  The fill callback
is an append-only sink user: it is modelled by the byte list `cbApp` it
appends to the output stream and the error `cbErr` it returns.  Mirrors
the source: closed check, 4-byte WriteDirectly reservation, callback,
Unwrite rollback on callback error, size check with Unwrite rollback,
and the PutUint32 back-patch. -/
def Transport.write (t : Transport) (cbApp : List Nat) (cbErr : Option GoError) :
    Transport × Option GoError :=
  if t.isClosed then (t, some .transportClosed)
  else
    let i := t.outputData.length
    let out1 := t.outputData ++ List.replicate packetHeaderSize 0
    let out2 := out1 ++ cbApp
    match cbErr with
    | some e => ({ t with outputData := unwrite (out2.length - i) out2 }, some e)
    | none =>
      let packetLen := out2.length - i
      let packetPayloadSize := packetLen - packetHeaderSize
      if packetPayloadSize > t.maxPacketPayloadSize then
        ({ t with outputData := unwrite packetLen out2 }, some .packetPayloadTooLarge)
      else
        ({ t with outputData := putUint32At out2 i packetPayloadSize }, none)

/-- transport.close, from transport.go lines 71-89.  `force` only affects
the TCP linger option, which has no observable state here; the
connection-close result is the parameter `connCloseErr`.  The GC of the
two byte streams and the nil-ing of policy and connection are modelled by
clearing the buffers and the pending connection chunks. -/
def Transport.close (t : Transport) (_force : Bool) (connCloseErr : Option GoError) :
    Transport × Option GoError :=
  if t.isClosed then (t, some .transportClosed)
  else
    ({ t with openness := -1, inputData := [], inputBufCap := 0,
              outputData := [], conn := [] }, connCloseErr)

/-- transport.skip, from transport.go lines 102-110: consume the header
plus payload bytes of one peeked packet from the input stream. -/
def Transport.skip (t : Transport) (packetPayload : List Nat) :
    Transport × Option GoError :=
  if t.isClosed then (t, some .transportClosed)
  else
    ({ t with inputData := t.inputData.drop (packetHeaderSize + packetPayload.length) },
     none)

/-- transport.flush, from transport.go lines 179-227, specialized to the
stream-socket branch (a single connection write).  Deadline construction
and SetWriteDeadline failures are folded into `deadlineErr`; the
underlying write result is `(writeN, writeErr)`; the written bytes are
skipped from the output stream. -/
def Transport.flush (t : Transport) (deadlineErr : Option GoError)
    (writeN : Nat) (writeErr : Option GoError) : Transport × Option GoError :=
  if t.isClosed then (t, some .transportClosed)
  else
    match deadlineErr with
    | some e => (t, some e)
    | none => ({ t with outputData := t.outputData.drop writeN }, writeErr)

/-- Total byte count still deliverable by the modelled connection. -/
def connTotal (conn : List (List Nat)) : Nat :=
  (conn.map List.length).sum

/-- The `for { Read; CommitBuffer; ... }` loop shared by both halves of
transport.doPeek: read from the connection into the reserved buffer and
commit, until at least `threshold` bytes of data are committed.  A read
that delivers zero bytes (connection exhausted, or no buffer space)
returns the underlying Read error, modelled as `eof`.  After reaching the
threshold the source re-reserves one byte when the buffer is exactly
exhausted. -/
def readUntil (t : Transport) (threshold : Nat) : Transport × Option GoError :=
  match hc : t.conn with
  | [] => (t, some .eof)
  | chunk :: rest =>
    let k := min t.inputBufCap chunk.length
    if hk : k = 0 then (t, some .eof)
    else
      let t' : Transport :=
        { t with inputData := t.inputData ++ chunk.take k,
                 inputBufCap := t.inputBufCap - k,
                 conn := if chunk.drop k = [] then rest else chunk.drop k :: rest }
      if t'.inputData.length ≥ threshold then
        (if t'.inputBufCap = 0 then { t' with inputBufCap := 1 } else t', none)
      else readUntil t' threshold
termination_by connTotal t.conn
decreasing_by
  simp only [connTotal, hc, List.map_cons, List.sum_cons]
  have hle : min t.inputBufCap chunk.length ≤ chunk.length := Nat.min_le_right _ _
  split
  · case _ hdrop =>
      have : chunk.length - min t.inputBufCap chunk.length = 0 := by
        have := congrArg List.length hdrop
        simpa [List.length_drop] using this
      omega
  · simp only [List.map_cons, List.sum_cons, List.length_drop]
    omega

/-- transport.doPeek, from transport.go lines 233-317.  Deadline
construction (makeDeadline) and SetReadDeadline failures are folded into
the parameter `deadlineErr`, consulted exactly where the source builds a
deadline: before the first read loop when fewer than four bytes are
buffered, and before the second read loop when the deadline was not yet
set.  Returns the whole packet (header plus payload) and the updated
state. -/
def Transport.doPeek (t : Transport) (deadlineErr : Option GoError) :
    Except GoError (List Nat) × Transport :=
  if t.isClosed then (.error .transportClosed, t)
  else
    let deadlineIsSet := t.inputData.length < packetHeaderSize
    let step1 : Transport × Option GoError :=
      if t.inputData.length < packetHeaderSize then
        match deadlineErr with
        | some e => (t, some e)
        | none => readUntil t packetHeaderSize
      else (t, none)
    match step1 with
    | (t1, some e) => (.error e, t1)
    | (t1, none) =>
      let packetPayloadSize := decode32 (t1.inputData.take packetHeaderSize)
      if packetPayloadSize > t.maxPacketPayloadSize then
        (.error .packetPayloadTooLarge, t1)
      else
        let packetSize := packetHeaderSize + packetPayloadSize
        if packetSize - t1.inputData.length ≥ 1 then
          match (if deadlineIsSet then none else deadlineErr) with
          | some e => (.error e, t1)
          | none =>
            let t2 : Transport :=
              { t1 with inputBufCap := max t1.inputBufCap (packetSize - t1.inputData.length) }
            match readUntil t2 packetSize with
            | (t3, some e) => (.error e, t3)
            | (t3, none) => (.ok (t3.inputData.take packetSize), t3)
        else (.ok (t1.inputData.take packetSize), t1)

/-- transport.peek, from transport.go lines 91-100: doPeek, then strip the
four-byte header. -/
def Transport.peek (t : Transport) (deadlineErr : Option GoError) :
    Except GoError (List Nat) × Transport :=
  match t.doPeek deadlineErr with
  | (.error e, t1) => (.error e, t1)
  | (.ok packet, t1) => (.ok (packet.drop packetHeaderSize), t1)

/-- transport.tryPeek, from transport.go lines 319-339: a pure lookahead
at offset `dataOffset` into the committed input data, with no reads. -/
def Transport.tryPeek (t : Transport) (dataOffset : Nat) : Option (List Nat) :=
  if t.inputData.length - dataOffset < packetHeaderSize then none
  else
    let packetPayloadSize :=
      decode32 ((t.inputData.drop dataOffset).take packetHeaderSize)
    if packetPayloadSize > t.maxPacketPayloadSize then none
    else
      let packetSize := packetHeaderSize + packetPayloadSize
      if t.inputData.length - dataOffset < packetSize then none
      else some ((t.inputData.drop dataOffset).take packetSize)

theorem tryPeek_some_bounds (t : Transport) (off : Nat) (pkt : List Nat)
    (h : t.tryPeek off = some pkt) :
    4 ≤ pkt.length ∧ off + pkt.length ≤ t.inputData.length := by
  simp only [Transport.tryPeek] at h
  split at h
  · exact absurd h (by simp)
  · case _ h1 =>
    split at h
    · exact absurd h (by simp)
    · split at h
      · exact absurd h (by simp)
      · case _ h3 =>
        simp only [Option.some_inj] at h
        subst h
        simp only [List.length_take, List.length_drop, packetHeaderSize] at *
        omega

/-- The drain loop inside transport.peekInBatch (transport.go lines
122-131): starting past the first packet, repeatedly tryPeek and collect
payloads until no further complete packet is buffered. -/
def Transport.drainLoop (t : Transport) (dataOffset : Nat) : List (List Nat) :=
  match h : t.tryPeek dataOffset with
  | none => []
  | some packet =>
    packet.drop packetHeaderSize :: t.drainLoop (dataOffset + packet.length)
termination_by t.inputData.length - dataOffset
decreasing_by
  have := tryPeek_some_bounds t dataOffset packet h
  omega

/-- transport.peekInBatch, from transport.go lines 112-134: doPeek once,
then drain all further complete packets already buffered. -/
def Transport.peekInBatch (t : Transport) (deadlineErr : Option GoError) :
    Except GoError (List (List Nat)) × Transport :=
  match t.doPeek deadlineErr with
  | (.error e, t1) => (.error e, t1)
  | (.ok packet, t1) =>
    (.ok (packet.drop packetHeaderSize :: t1.drainLoop packet.length), t1)

/-- Greedy decomposition of a byte string into the payloads of its
leading complete packets: stop at the first truncated header, oversized
payload length, or truncated payload.  This is the specification-level
reading of "every further complete packet present in the buffer". -/
def parsePayloads (maxPayload : Nat) (bytes : List Nat) : List (List Nat) :=
  if bytes.length < 4 then []
  else
    let payloadSize := decode32 (bytes.take 4)
    if payloadSize > maxPayload then []
    else if bytes.length < 4 + payloadSize then []
    else (bytes.drop 4).take payloadSize :: parsePayloads maxPayload (bytes.drop (4 + payloadSize))
termination_by bytes.length
decreasing_by
  simp only [List.length_drop]
  omega

/-- Constants from transport.go lines 45-48. -/
def defaultInitialReadBufferSizeOfTransport : Int := 2 ^ 12

def minInitialReadBufferSizeOfTransport : Int := 2 ^ 8

def maxInitialReadBufferSizeOfTransport : Int := 2 ^ 16

def minMaxPacketPayloadSize : Int := 2 ^ 16

/-- TransportPolicy from transport.go.  The two int32 fields are modelled
as Int (Validate only compares and assigns small constants, so no wrap is
involved); `validated` models the sync.Once guard. -/
structure TransportPolicy where
  initialReadBufferSize : Int
  maxPacketPayloadSize : Int
  validated : Bool
deriving DecidableEq, Repr

/-- TransportPolicy.Validate, from transport.go lines 22-40: on the first
call, default a zero read-buffer size to 4096, otherwise clamp it into
[256, 65536], and raise the max payload size to at least 65536; later
calls (validated = true) change nothing. -/
def TransportPolicy.validate (p : TransportPolicy) : TransportPolicy :=
  if p.validated then p
  else
    let irbs :=
      if p.initialReadBufferSize = 0 then defaultInitialReadBufferSizeOfTransport
      else if p.initialReadBufferSize < minInitialReadBufferSizeOfTransport then
        minInitialReadBufferSizeOfTransport
      else if p.initialReadBufferSize > maxInitialReadBufferSizeOfTransport then
        maxInitialReadBufferSizeOfTransport
      else p.initialReadBufferSize
    let mpps :=
      if p.maxPacketPayloadSize < minMaxPacketPayloadSize then minMaxPacketPayloadSize
      else p.maxPacketPayloadSize
    { initialReadBufferSize := irbs, maxPacketPayloadSize := mpps, validated := true }

/-- The retryability test of the client dialing loop (part_000 lines
139-147 and 152-160): an attempt error lets the loop continue exactly
when it is io.EOF or a *net.OpError. -/
def retryable : GoError → Bool
  | .eof => true
  | .opError _ => true
  | _ => false

/-- One iteration of the ClientChannel.Run loop, seen from its exits:
the address-pool draw fails, the connect (dial plus handshake) attempt
fails, or the dispatch round ends with the given result (none meaning a
clean return that loops again). -/
inductive AttemptOutcome where
  | getValueFails (e : GoError)
  | connectFails (e : GoError)
  | dispatchEnds (e : Option GoError)
deriving DecidableEq, Repr

/-- Result of running the dialing loop against a finite script of
attempt outcomes: either the loop broke with an error, or the script ran
out while the loop was still going. -/
inductive RunOutcome where
  | finished (e : GoError)
  | running
deriving DecidableEq, Repr

/-- The `for { ... }` loop of ClientChannel.Run (part_000 lines 126-161):
a GetValue error breaks; a connect error continues when retryable and
breaks otherwise; a dispatch error likewise; a clean dispatch loops. -/
def clientRunLoop : List AttemptOutcome → RunOutcome
  | [] => .running
  | .getValueFails e :: _ => .finished e
  | .connectFails e :: rest =>
    if retryable e then clientRunLoop rest else .finished e
  | .dispatchEnds none :: rest => clientRunLoop rest
  | .dispatchEnds (some e) :: rest =>
    if retryable e then clientRunLoop rest else .finished e

/-- ClientChannel.Run after the loop (part_000 lines 163-166): once the
loop breaks, impl.close() runs and the loop's error is returned.  The
Bool records that the channel was closed on the way out; `none` means
the script ended with the loop still running. -/
def clientChannelRun (script : List AttemptOutcome) : Option (GoError × Bool) :=
  match clientRunLoop script with
  | .finished e => some (e, true)
  | .running => none

/-- ContextVars from part_000 lines 302-317, restricted to the fields the
tracing claims touch.  TraceID models the uuid.UUID value as a Nat; the
shared `*int32` next-span counter is modelled by carrying its current
value in `nextSpanID` (int32 arithmetic modelled as Int; the claims never
reach the wrap point). -/
structure ContextVars where
  serviceName : String
  methodName : String
  methodIndex : Int
  fifoKey : String
  traceID : Nat
  spanParentID : Int
  spanID : Int
  nextSpanID : Int
deriving DecidableEq, Repr

/-- makeContextVars, from part_000 lines 494-543.  `ctxVars` is what
GetContextVars would find in the supplied context (none when the context
carries no ContextVars, or when the nil context is passed); `freshUUID`
is the value uuid.GenerateUUID4 would produce.  The result pairs the new
ContextVars with the parent as visible after the call (the post-increment
of the shared counter is the only mutation). -/
def makeContextVars (serviceName methodName : String) (methodIndex : Int)
    (fifoKey : String) (tryInheritSpan : Bool) (ctxVars : Option ContextVars)
    (freshUUID : Nat) : ContextVars × Option ContextVars :=
  let parent := if tryInheritSpan then ctxVars else none
  match parent with
  | some p =>
    ({ serviceName, methodName, methodIndex, fifoKey,
       traceID := p.traceID, spanParentID := p.spanID, spanID := p.nextSpanID,
       nextSpanID := p.nextSpanID + 1 },
     some { p with nextSpanID := p.nextSpanID + 1 })
  | none =>
    ({ serviceName, methodName, methodIndex, fifoKey,
       traceID := freshUUID, spanParentID := 0, spanID := 1, nextSpanID := 2 },
     ctxVars)

/-- The ContextVars construction step of ClientChannel.CallMethodWithoutReturn
(part_000 line 106): tryInheritSpan is hard-coded to false and a nil
context is passed, so the ambient context vars of the caller's context
(the `ambient` parameter) are never forwarded to makeContextVars. -/
def clientCallMethodWithoutReturnVars (_ambient : Option ContextVars)
    (serviceName methodName : String) (methodIndex : Int) (fifoKey : String)
    (freshUUID : Nat) : ContextVars × Option ContextVars :=
  makeContextVars serviceName methodName methodIndex fifoKey false none freshUUID

/-- The ContextVars construction step of ServerChannel.CallMethodWithoutReturn
(part_000 line 244): identical to the client side, tryInheritSpan=false
with a nil context. -/
def serverCallMethodWithoutReturnVars (_ambient : Option ContextVars)
    (serviceName methodName : String) (methodIndex : Int) (fifoKey : String)
    (freshUUID : Nat) : ContextVars × Option ContextVars :=
  makeContextVars serviceName methodName methodIndex fifoKey false none freshUUID

/-- Modelled from the spec: makeMethodInterceptorLocator is not among the
provided sources (only its caller is); per the spec the per-method scope
key is `"svc:methodIndex"`, the service name and the method index joined
by a colon. -/
def makeMethodInterceptorLocator (serviceName : String) (methodIndex : Int) : String :=
  serviceName ++ ":" ++ toString methodIndex

/-- makeOutgoingMethodInterceptors, from part_000 lines 545-556.  The
interceptor registry `m` models the Go map (a missing key yields the nil
slice, i.e. []); interceptors themselves are abstracted to Nat tags.  The
per-method group is appended only when the method index is nonnegative. -/
def makeOutgoingMethodInterceptors (m : String → List Nat)
    (serviceName : String) (methodIndex : Int) : List Nat :=
  let l1 := ([] : List Nat) ++ m ""
  let l2 := l1 ++ m serviceName
  if methodIndex ≥ 0 then
    l2 ++ m (makeMethodInterceptorLocator serviceName methodIndex)
  else l2

/-- Errors a CallMethod invocation can surface: a plain Go error (for
example the caller's context error) or the rpc error built from a nonzero
callback error code (the `&Error{...}` branch in doCallMethod). -/
inductive CallError where
  | go (e : GoError)
  | rpc (code : Nat) (desc : String)
deriving DecidableEq, Repr

/-- The outcome of the select in channelBase.doCallMethod: either the
pending call's callback delivered first (with its response and error
code), or the caller's context became done first. -/
inductive CallOutcome where
  | callbackDelivered (response : Option Nat) (errorCode : Nat) (errorDesc : String)
  | ctxDoneFirst
deriving DecidableEq, Repr

/-- channelBase.doCallMethod, from part_000 lines 398-439.  `implErr` is
the immediate result of impl.callMethod; `ctxErr` is the value ctx.Err()
holds once the context is done; `outcome` resolves the select between the
callback's channel send and ctx.Done().  Responses are abstracted to Nat. -/
def doCallMethod (implErr : Option GoError) (ctxErr : GoError)
    (outcome : CallOutcome) : Option Nat × Option CallError :=
  match implErr with
  | some e => (none, some (.go e))
  | none =>
    match outcome with
    | .callbackDelivered response errorCode errorDesc =>
      if errorCode ≠ 0 then (none, some (.rpc errorCode errorDesc))
      else (response, none)
    | .ctxDoneFirst => (none, some (.go ctxErr))

/-- Claim C3: in ClientChannel.Run, a failed connect attempt or dispatch
round continues the dialing loop exactly when the error is io.EOF or a
*net.OpError; any other error breaks the loop, the channel is closed, and
that error is returned to the caller. -/
theorem c3_client_retry_classification (e : GoError) (rest : List AttemptOutcome) :
    (clientChannelRun (.connectFails e :: rest) =
      if retryable e then clientChannelRun rest else some (e, true))
    ∧ (clientChannelRun (.dispatchEnds (some e) :: rest) =
      if retryable e then clientChannelRun rest else some (e, true))
    ∧ (retryable e = true ↔ e = .eof ∨ ∃ n, e = .opError n) := by
  refine ⟨?_, ?_, ?_⟩
  · by_cases h : retryable e <;> simp [clientChannelRun, clientRunLoop, h]
  · by_cases h : retryable e <;> simp [clientChannelRun, clientRunLoop, h]
  · cases e <;> simp [retryable]

/-- Claim C8: in channelBase.doCallMethod, when impl.callMethod succeeds
and the caller's context becomes done before the pending call's callback
delivers a result, the call returns a nil response paired with exactly
the context's error, not a wrapped or translated one. -/
theorem c8_ctx_error_verbatim (ctxErr : GoError) :
    doCallMethod none ctxErr .ctxDoneFirst = (none, some (.go ctxErr)) := rfl

/-- Claim C10: CallMethodWithoutReturn on both ClientChannel and
ServerChannel builds its ContextVars with tryInheritSpan=false, so every
such call gets a fresh trace id with SpanID=1 and SpanParentID=0,
independently of any parent ContextVars carried by the ambient context. -/
theorem c10_fire_and_forget_fresh_trace (ambient : Option ContextVars)
    (sn mn : String) (mi : Int) (fk : String) (u : Nat) :
    ((clientCallMethodWithoutReturnVars ambient sn mn mi fk u).1.traceID = u
      ∧ (clientCallMethodWithoutReturnVars ambient sn mn mi fk u).1.spanID = 1
      ∧ (clientCallMethodWithoutReturnVars ambient sn mn mi fk u).1.spanParentID = 0)
    ∧ ((serverCallMethodWithoutReturnVars ambient sn mn mi fk u).1.traceID = u
      ∧ (serverCallMethodWithoutReturnVars ambient sn mn mi fk u).1.spanID = 1
      ∧ (serverCallMethodWithoutReturnVars ambient sn mn mi fk u).1.spanParentID = 0)
    ∧ clientCallMethodWithoutReturnVars ambient sn mn mi fk u =
        clientCallMethodWithoutReturnVars none sn mn mi fk u
    ∧ serverCallMethodWithoutReturnVars ambient sn mn mi fk u =
        serverCallMethodWithoutReturnVars none sn mn mi fk u := by
  refine ⟨⟨rfl, rfl, rfl⟩, ⟨rfl, rfl, rfl⟩, rfl, rfl⟩

/-- Claim C4: makeContextVars gives a root call (no parent ContextVars or
tryInheritSpan=false) the freshly generated trace id, SpanID 1,
SpanParentID 0 and a next-span counter at 2, leaving the ambient vars
untouched; a child call (parent present, tryInheritSpan=true) inherits
the parent's trace id, takes SpanParentID from the parent's SpanID, takes
SpanID from the shared counter, and post-increments that counter. -/
theorem c4_span_allocation (sn mn : String) (mi : Int) (fk : String)
    (tis : Bool) (ctxVars : Option ContextVars) (u : Nat) (p : ContextVars)
    (hroot : tis = false ∨ ctxVars = none) :
    makeContextVars sn mn mi fk tis ctxVars u =
      ({ serviceName := sn, methodName := mn, methodIndex := mi, fifoKey := fk,
         traceID := u, spanParentID := 0, spanID := 1, nextSpanID := 2 }, ctxVars)
    ∧ makeContextVars sn mn mi fk true (some p) u =
      ({ serviceName := sn, methodName := mn, methodIndex := mi, fifoKey := fk,
         traceID := p.traceID, spanParentID := p.spanID, spanID := p.nextSpanID,
         nextSpanID := p.nextSpanID + 1 },
       some { p with nextSpanID := p.nextSpanID + 1 }) := by
  constructor
  · rcases hroot with h | h
    · subst h
      simp [makeContextVars]
    · subst h
      cases tis <;> simp [makeContextVars]
  · rfl

/-- Witness for C4 at concrete inputs. -/
theorem c4_span_allocation_witness :
    ((false = false ∨ (some ⟨"a", "b", 0, "", 9, 0, 1, 5⟩ : Option ContextVars) = none)
    ∧ (makeContextVars "s" "m" 2 "k" false (some ⟨"a", "b", 0, "", 9, 0, 1, 5⟩) 7 =
        ({ serviceName := "s", methodName := "m", methodIndex := 2, fifoKey := "k",
           traceID := 7, spanParentID := 0, spanID := 1, nextSpanID := 2 },
         some ⟨"a", "b", 0, "", 9, 0, 1, 5⟩)
      ∧ makeContextVars "s" "m" 2 "k" true (some ⟨"a", "b", 0, "", 9, 0, 1, 5⟩) 7 =
        ({ serviceName := "s", methodName := "m", methodIndex := 2, fifoKey := "k",
           traceID := 9, spanParentID := 1, spanID := 5, nextSpanID := 6 },
         some ⟨"a", "b", 0, "", 9, 0, 1, 6⟩))) :=
  ⟨Or.inl rfl,
   c4_span_allocation "s" "m" 2 "k" false (some ⟨"a", "b", 0, "", 9, 0, 1, 5⟩) 7
     ⟨"a", "b", 0, "", 9, 0, 1, 5⟩ (Or.inl rfl)⟩

/-- Claim C9: the first TransportPolicy.Validate call defaults a zero
InitialReadBufferSize to 4096 and otherwise clamps it into [256, 65536],
raises MaxPacketPayloadSize to at least 65536 whenever it is smaller, and
later calls change nothing, so every validated policy has
MaxPacketPayloadSize at least 65536. -/
theorem c9_policy_validate (p : TransportPolicy) (h : p.validated = false) :
    p.validate.validated = true
    ∧ p.validate.initialReadBufferSize =
        (if p.initialReadBufferSize = 0 then 4096
         else min 65536 (max 256 p.initialReadBufferSize))
    ∧ 256 ≤ p.validate.initialReadBufferSize
    ∧ p.validate.initialReadBufferSize ≤ 65536
    ∧ p.validate.maxPacketPayloadSize = max 65536 p.maxPacketPayloadSize
    ∧ 65536 ≤ p.validate.maxPacketPayloadSize
    ∧ p.validate.validate = p.validate := by
  simp only [TransportPolicy.validate, h, Bool.false_eq_true, if_false, if_true,
    defaultInitialReadBufferSizeOfTransport, minInitialReadBufferSizeOfTransport,
    maxInitialReadBufferSizeOfTransport, minMaxPacketPayloadSize]
  norm_num
  refine ⟨?_, ?_, ?_, ?_, ?_⟩ <;> split_ifs <;> omega

/-- Witness for C9 at a concrete unvalidated policy. -/
theorem c9_policy_validate_witness :
    ((⟨0, 0, false⟩ : TransportPolicy).validated = false
    ∧ ((⟨0, 0, false⟩ : TransportPolicy).validate.validated = true
      ∧ (⟨0, 0, false⟩ : TransportPolicy).validate.initialReadBufferSize =
          (if (0 : Int) = 0 then 4096 else min 65536 (max 256 (0 : Int)))
      ∧ 256 ≤ (⟨0, 0, false⟩ : TransportPolicy).validate.initialReadBufferSize
      ∧ (⟨0, 0, false⟩ : TransportPolicy).validate.initialReadBufferSize ≤ 65536
      ∧ (⟨0, 0, false⟩ : TransportPolicy).validate.maxPacketPayloadSize =
          max 65536 (0 : Int)
      ∧ 65536 ≤ (⟨0, 0, false⟩ : TransportPolicy).validate.maxPacketPayloadSize
      ∧ (⟨0, 0, false⟩ : TransportPolicy).validate.validate =
          (⟨0, 0, false⟩ : TransportPolicy).validate)) :=
  ⟨rfl, c9_policy_validate ⟨0, 0, false⟩ rfl⟩

/-- Claim C7 counterexample: with an interceptor registered under the
per-method key "svc:-1" and a call with methodIndex -1, the composed list
skips the per-method group, so the list is not always
global ++ per-service ++ per-method. -/
theorem c7_composition_counterexample :
    ¬ (makeOutgoingMethodInterceptors
        (fun k => if k = "svc:-1" then [7] else []) "svc" (-1) =
      (fun k => if k = "svc:-1" then [7] else []) ""
        ++ (fun k => if k = "svc:-1" then [7] else []) "svc"
        ++ (fun k => if k = "svc:-1" then [7] else [])
            (makeMethodInterceptorLocator "svc" (-1))) := by
  decide

/-- Claim C7 as amended: for every call whose methodIndex is nonnegative,
the composed interceptor list is exactly the global interceptors (key ""),
then the per-service interceptors (key = service name), then the
per-method interceptors (key "serviceName:methodIndex"), each group in
registration order. -/
theorem c7_composition_order (m : String → List Nat) (s : String) (i : Int)
    (h : i ≥ 0) :
    makeOutgoingMethodInterceptors m s i =
      m "" ++ m s ++ m (makeMethodInterceptorLocator s i) := by
  simp [makeOutgoingMethodInterceptors, h]

/-- Witness for C7's amended theorem at a concrete registry. -/
theorem c7_composition_order_witness :
    (0 : Int) ≥ 0
    ∧ makeOutgoingMethodInterceptors (fun _ => [1]) "svc" 0 =
      (fun _ : String => [1]) "" ++ (fun _ : String => [1]) "svc"
        ++ (fun _ : String => [1]) (makeMethodInterceptorLocator "svc" 0) :=
  ⟨le_refl 0, c7_composition_order (fun _ => [1]) "svc" 0 (le_refl 0)⟩

theorem unwrite_append (l m : List Nat) :
    unwrite ((l ++ m).length - l.length) (l ++ m) = l := by
  unfold unwrite
  have h1 : (l ++ m).length - ((l ++ m).length - l.length) = l.length := by
    simp [List.length_append]
  rw [h1, List.take_left]

/-- Claim C2: transport.write is atomic on failure.  On an open transport,
a fill callback that appends some bytes and then fails makes write return
that error with the output stream exactly as before the call (reservation
and appended bytes rolled back); a callback whose appended payload
exceeds MaxPacketPayloadSize makes write return
PacketPayloadTooLargeError, again with the output stream restored. -/
theorem c2_write_atomic (t : Transport) (cbApp : List Nat) (e : GoError)
    (hopen : t.openness = 1) :
    t.write cbApp (some e) = (t, some e)
    ∧ (cbApp.length > t.maxPacketPayloadSize →
        t.write cbApp none = (t, some .packetPayloadTooLarge)) := by
  have hclosed : t.isClosed = false := by simp [Transport.isClosed, hopen]
  have key :
      unwrite ((t.outputData ++ (List.replicate packetHeaderSize 0 ++ cbApp)).length
          - t.outputData.length)
        (t.outputData ++ (List.replicate packetHeaderSize 0 ++ cbApp)) = t.outputData :=
    unwrite_append _ _
  constructor
  · simp only [Transport.write, hclosed, Bool.false_eq_true, if_false, List.append_assoc]
    rw [key]
  · intro hbig
    have hcond :
        (t.outputData ++ List.replicate packetHeaderSize 0 ++ cbApp).length
            - t.outputData.length - packetHeaderSize > t.maxPacketPayloadSize := by
      simp [List.length_append, packetHeaderSize]
      omega
    simp only [Transport.write, hclosed, Bool.false_eq_true, if_false]
    rw [if_pos hcond]
    simp only [List.append_assoc] at key ⊢
    rw [key]

/-- Witness for C2 at a concrete transport and callback. -/
theorem c2_write_atomic_witness :
    ((⟨1, 2, [], 0, [9], []⟩ : Transport).openness = 1
    ∧ ((⟨1, 2, [], 0, [9], []⟩ : Transport).write [1, 2, 3] (some .eof) =
        (⟨1, 2, [], 0, [9], []⟩, some .eof)
      ∧ (([1, 2, 3] : List Nat).length > (⟨1, 2, [], 0, [9], []⟩ : Transport).maxPacketPayloadSize →
          (⟨1, 2, [], 0, [9], []⟩ : Transport).write [1, 2, 3] none =
            (⟨1, 2, [], 0, [9], []⟩, some .packetPayloadTooLarge)))) :=
  ⟨rfl, c2_write_atomic ⟨1, 2, [], 0, [9], []⟩ [1, 2, 3] .eof rfl⟩

/-- Claim C1: packet framing round-trip.  Writing a payload within the
size bound appends exactly the 4-byte big-endian payload length followed
by the payload to the output stream, and peeking on an open transport
whose input buffer holds exactly those bytes returns that payload,
without touching the connection or the buffered state. -/
theorem c1_packet_roundtrip (t r : Transport) (p : List Nat) (dErr : Option GoError)
    (ht : t.openness = 1) (hr : r.openness = 1)
    (hp : p.length ≤ t.maxPacketPayloadSize) (hmax : t.maxPacketPayloadSize < 2 ^ 32)
    (hrmax : p.length ≤ r.maxPacketPayloadSize)
    (hbuf : r.inputData = encode32 p.length ++ p) :
    t.write p none =
      ({ t with outputData := t.outputData ++ encode32 p.length ++ p }, none)
    ∧ r.peek dErr = (.ok p, r) := by
  have hplen : p.length < 2 ^ 32 := lt_of_le_of_lt hp hmax
  constructor
  · have hclosed : t.isClosed = false := by simp [Transport.isClosed, ht]
    have hsize :
        (t.outputData ++ List.replicate packetHeaderSize 0 ++ p).length
            - t.outputData.length - packetHeaderSize = p.length := by
      simp [List.length_append, packetHeaderSize]
    simp only [Transport.write, hclosed, Bool.false_eq_true, if_false, hsize]
    rw [if_neg (by omega)]
    have hput :
        putUint32At (t.outputData ++ List.replicate packetHeaderSize 0 ++ p)
            t.outputData.length p.length
          = t.outputData ++ encode32 p.length ++ p := by
      unfold putUint32At
      have h1 : (t.outputData ++ List.replicate packetHeaderSize 0 ++ p).take
          t.outputData.length = t.outputData := by
        rw [List.append_assoc, List.take_left]
      have h2 : (t.outputData ++ List.replicate packetHeaderSize 0 ++ p).drop
          (t.outputData.length + 4) = p := by
        have hlen : (t.outputData ++ List.replicate packetHeaderSize 0).length
            = t.outputData.length + 4 := by
          simp [packetHeaderSize]
        rw [← hlen, List.drop_left]
      rw [h1, h2, List.append_assoc]
    rw [hput, List.append_assoc]
  · have hclosed : r.isClosed = false := by simp [Transport.isClosed, hr]
    have hdlen : r.inputData.length = 4 + p.length := by
      simp [hbuf, encode32]
      omega
    have hhdr : r.inputData.take packetHeaderSize = encode32 p.length := by
      rw [hbuf, packetHeaderSize, ← length_encode32 p.length, List.take_left]
    have hdec : decode32 (r.inputData.take packetHeaderSize) = p.length := by
      rw [hhdr, decode32_encode32 _ hplen]
    have hfast : ¬ (r.inputData.length < packetHeaderSize) := by
      rw [hdlen, packetHeaderSize]; omega
    unfold Transport.peek Transport.doPeek
    simp only [hclosed, Bool.false_eq_true, if_false, if_neg hfast, hdec]
    rw [if_neg (by omega)]
    rw [if_neg (by rw [hdlen, packetHeaderSize]; omega)]
    have htake : r.inputData.take (packetHeaderSize + p.length) = r.inputData := by
      rw [show packetHeaderSize + p.length = r.inputData.length by
            rw [hdlen, packetHeaderSize],
          List.take_length]
    rw [htake]
    simp only [hbuf]
    rw [packetHeaderSize, ← length_encode32 p.length, List.drop_left]

/-- Witness for C1 with a three-byte payload. -/
theorem c1_packet_roundtrip_witness :
    ((1 : Int) = 1 ∧ (1 : Int) = 1
    ∧ ([5, 6, 7] : List Nat).length ≤ 65536 ∧ (65536 : Nat) < 2 ^ 32
    ∧ ([5, 6, 7] : List Nat).length ≤ 65536
    ∧ (⟨1, 65536, encode32 3 ++ [5, 6, 7], 1, [], []⟩ : Transport).inputData =
        encode32 ([5, 6, 7] : List Nat).length ++ [5, 6, 7]
    ∧ ((⟨1, 65536, [], 0, [], []⟩ : Transport).write [5, 6, 7] none =
        ({ (⟨1, 65536, [], 0, [], []⟩ : Transport) with
            outputData := [] ++ encode32 ([5, 6, 7] : List Nat).length ++ [5, 6, 7] },
         none)
      ∧ (⟨1, 65536, encode32 3 ++ [5, 6, 7], 1, [], []⟩ : Transport).peek none =
          (.ok [5, 6, 7], ⟨1, 65536, encode32 3 ++ [5, 6, 7], 1, [], []⟩))) := by
  refine ⟨rfl, rfl, by norm_num, by norm_num, by norm_num, rfl, ?_⟩
  exact c1_packet_roundtrip ⟨1, 65536, [], 0, [], []⟩
    ⟨1, 65536, encode32 3 ++ [5, 6, 7], 1, [], []⟩ [5, 6, 7] none rfl rfl
    (by norm_num) (by norm_num) (by norm_num) rfl

/-- Claim C6: closing an open transport marks it closed; every further
close (any force flag) returns TransportClosedError and leaves the state
unchanged; and peek, peekInBatch, skip, write and flush on the closed
transport all return TransportClosedError without changing the state. -/
theorem c6_close_idempotent (t : Transport) (force f2 : Bool)
    (cErr c2 d d2 : Option GoError) (pl app : List Nat)
    (ce : Option GoError) (n : Nat) (we : Option GoError)
    (hopen : t.openness = 1) :
    (t.close force cErr).1.isClosed = true
    ∧ (t.close force cErr).1.close f2 c2 = ((t.close force cErr).1, some .transportClosed)
    ∧ (t.close force cErr).1.peek d = (.error .transportClosed, (t.close force cErr).1)
    ∧ (t.close force cErr).1.peekInBatch d =
        (.error .transportClosed, (t.close force cErr).1)
    ∧ (t.close force cErr).1.skip pl = ((t.close force cErr).1, some .transportClosed)
    ∧ (t.close force cErr).1.write app ce = ((t.close force cErr).1, some .transportClosed)
    ∧ (t.close force cErr).1.flush d2 n we =
        ((t.close force cErr).1, some .transportClosed) := by
  have h1 : (t.close force cErr).1 =
      { t with openness := -1, inputData := [], inputBufCap := 0,
               outputData := [], conn := [] } := by
    simp [Transport.close, Transport.isClosed, hopen]
  rw [h1]
  refine ⟨rfl, rfl, rfl, rfl, rfl, rfl, rfl⟩

/-- Witness for C6 at a concrete open transport. -/
theorem c6_close_idempotent_witness :
    ((⟨1, 5, [1], 2, [3], [[4]]⟩ : Transport).openness = 1
    ∧ (((⟨1, 5, [1], 2, [3], [[4]]⟩ : Transport).close true none).1.isClosed = true
      ∧ ((⟨1, 5, [1], 2, [3], [[4]]⟩ : Transport).close true none).1.close false (some .eof) =
          (((⟨1, 5, [1], 2, [3], [[4]]⟩ : Transport).close true none).1, some .transportClosed)
      ∧ ((⟨1, 5, [1], 2, [3], [[4]]⟩ : Transport).close true none).1.peek none =
          (.error .transportClosed, ((⟨1, 5, [1], 2, [3], [[4]]⟩ : Transport).close true none).1)
      ∧ ((⟨1, 5, [1], 2, [3], [[4]]⟩ : Transport).close true none).1.peekInBatch none =
          (.error .transportClosed, ((⟨1, 5, [1], 2, [3], [[4]]⟩ : Transport).close true none).1)
      ∧ ((⟨1, 5, [1], 2, [3], [[4]]⟩ : Transport).close true none).1.skip [1] =
          (((⟨1, 5, [1], 2, [3], [[4]]⟩ : Transport).close true none).1, some .transportClosed)
      ∧ ((⟨1, 5, [1], 2, [3], [[4]]⟩ : Transport).close true none).1.write [2] none =
          (((⟨1, 5, [1], 2, [3], [[4]]⟩ : Transport).close true none).1, some .transportClosed)
      ∧ ((⟨1, 5, [1], 2, [3], [[4]]⟩ : Transport).close true none).1.flush none 3 none =
          (((⟨1, 5, [1], 2, [3], [[4]]⟩ : Transport).close true none).1, some .transportClosed))) :=
  ⟨rfl, c6_close_idempotent ⟨1, 5, [1], 2, [3], [[4]]⟩ true false none (some .eof)
    none none [1] [2] none 3 none rfl⟩

theorem drainLoop_eq_parse_aux (t : Transport) :
    ∀ (n off : Nat), t.inputData.length - off ≤ n →
      t.drainLoop off = parsePayloads t.maxPacketPayloadSize (t.inputData.drop off) := by
  intro n
  induction n with
  | zero =>
    intro off h0
    have htp : t.tryPeek off = none := by
      unfold Transport.tryPeek
      rw [if_pos (by simp [packetHeaderSize]; omega)]
    rw [Transport.drainLoop.eq_def, htp]
    rw [parsePayloads.eq_def]
    rw [if_pos (by simp [List.length_drop]; omega)]
  | succ n ih =>
    intro off h0
    rw [Transport.drainLoop.eq_def]
    split
    · case _ htp =>
      unfold Transport.tryPeek at htp
      rw [parsePayloads.eq_def]
      simp only [List.length_drop, packetHeaderSize] at htp ⊢
      split_ifs with h1 h2 h3 <;> try rfl
      exfalso
      rw [if_neg (by omega)] at htp
      simp only [gt_iff_lt] at htp h2
      rw [if_neg (by omega)] at htp
      rw [if_neg (by omega)] at htp
      exact Option.noConfusion htp
    · case _ pkt htp =>
      have hb := tryPeek_some_bounds t off pkt htp
      unfold Transport.tryPeek at htp
      simp only [packetHeaderSize] at htp ⊢
      split at htp
      · exact absurd htp (by simp)
      · case _ h1 =>
        split at htp
        · exact absurd htp (by simp)
        · case _ h2 =>
          split at htp
          · exact absurd htp (by simp)
          · case _ h3 =>
            simp only [Option.some_inj] at htp
            rw [parsePayloads.eq_def]
            simp only [List.length_drop, gt_iff_lt] at h1 h2 h3 ⊢
            rw [if_neg (by omega), if_neg (by omega), if_neg (by omega)]
            have hplen : pkt.length =
                4 + decode32 ((t.inputData.drop off).take 4) := by
              rw [← htp] at *
              rw [← htp]
              simp only [List.length_take, List.length_drop]
              omega
            congr 1
            · rw [← htp, List.drop_take]
              congr 1
              omega
            · rw [hplen]
              rw [ih (off + (4 + decode32 ((t.inputData.drop off).take 4))) (by omega)]
              rw [List.drop_drop,
                Nat.add_comm off (4 + decode32 ((t.inputData.drop off).take 4))]

theorem drainLoop_eq_parse (t : Transport) (off : Nat) :
    t.drainLoop off = parsePayloads t.maxPacketPayloadSize (t.inputData.drop off) :=
  drainLoop_eq_parse_aux t (t.inputData.length - off) off (le_refl _)

/-- Claim C5: whenever peekInBatch succeeds, the returned list starts with
the first complete packet's payload (the packet doPeek produced) and then
contains, in buffer order, the payload of every further complete packet
already present in the input buffer (the greedy decomposition of the
remaining buffered bytes), and the final state is exactly the post-doPeek
state, so the drain performs no further read from the connection. -/
theorem c5_peek_batch (t : Transport) (dErr : Option GoError)
    (ps : List (List Nat)) (tFin : Transport)
    (h : t.peekInBatch dErr = (.ok ps, tFin)) :
    ∃ pkt, t.doPeek dErr = (.ok pkt, tFin)
      ∧ ps = pkt.drop packetHeaderSize ::
          parsePayloads tFin.maxPacketPayloadSize (tFin.inputData.drop pkt.length)
      ∧ tFin.conn = (t.doPeek dErr).2.conn := by
  unfold Transport.peekInBatch at h
  cases hdp : t.doPeek dErr with
  | mk res t1 =>
    rw [hdp] at h
    cases res with
    | error e => exact absurd h (by simp)
    | ok pkt =>
      simp only [Prod.mk.injEq, Except.ok.injEq] at h
      obtain ⟨hps, hts⟩ := h
      subst hts
      refine ⟨pkt, rfl, ?_, rfl⟩
      rw [← hps, drainLoop_eq_parse]

/-- Witness for C5: a buffer holding one complete packet followed by a
second complete packet, drained in one batch. -/
theorem c5_peek_batch_witness :
    ((⟨1, 65536, [0, 0, 0, 1, 10, 0, 0, 0, 2, 20, 30], 1, [], []⟩ : Transport).peekInBatch
        none =
      (.ok [[10], [20, 30]], ⟨1, 65536, [0, 0, 0, 1, 10, 0, 0, 0, 2, 20, 30], 1, [], []⟩))
    ∧ ∃ pkt,
        (⟨1, 65536, [0, 0, 0, 1, 10, 0, 0, 0, 2, 20, 30], 1, [], []⟩ : Transport).doPeek none =
          (.ok pkt, ⟨1, 65536, [0, 0, 0, 1, 10, 0, 0, 0, 2, 20, 30], 1, [], []⟩)
        ∧ [[10], [20, 30]] = pkt.drop packetHeaderSize ::
            parsePayloads
              (⟨1, 65536, [0, 0, 0, 1, 10, 0, 0, 0, 2, 20, 30], 1, [], []⟩ : Transport).maxPacketPayloadSize
              ((⟨1, 65536, [0, 0, 0, 1, 10, 0, 0, 0, 2, 20, 30], 1, [], []⟩ : Transport).inputData.drop
                pkt.length)
        ∧ (⟨1, 65536, [0, 0, 0, 1, 10, 0, 0, 0, 2, 20, 30], 1, [], []⟩ : Transport).conn =
            ((⟨1, 65536, [0, 0, 0, 1, 10, 0, 0, 0, 2, 20, 30], 1, [], []⟩ : Transport).doPeek
              none).2.conn := by
  have hd11 : (⟨1, 65536, [0, 0, 0, 1, 10, 0, 0, 0, 2, 20, 30], 1, [], []⟩ : Transport).drainLoop
      11 = [] := by
    rw [Transport.drainLoop.eq_def]
    split
    · rfl
    · case _ packet hpk =>
      exact Option.noConfusion (show (none : Option (List Nat)) = some packet from hpk)
  have hd5 : (⟨1, 65536, [0, 0, 0, 1, 10, 0, 0, 0, 2, 20, 30], 1, [], []⟩ : Transport).drainLoop
      5 = [[20, 30]] := by
    rw [Transport.drainLoop.eq_def]
    split
    · case _ hpk =>
      exact Option.noConfusion
        (show (some [0, 0, 0, 2, 20, 30] : Option (List Nat)) = none from hpk)
    · case _ packet hpk =>
      have hp2 : ([0, 0, 0, 2, 20, 30] : List Nat) = packet :=
        Option.some.inj
          (show (some [0, 0, 0, 2, 20, 30] : Option (List Nat)) = some packet from hpk)
      subst hp2
      rw [show (5 + ([0, 0, 0, 2, 20, 30] : List Nat).length) = 11 from rfl, hd11]
      rfl
  have hb : (⟨1, 65536, [0, 0, 0, 1, 10, 0, 0, 0, 2, 20, 30], 1, [], []⟩ : Transport).peekInBatch
      none =
      (.ok [[10], [20, 30]], ⟨1, 65536, [0, 0, 0, 1, 10, 0, 0, 0, 2, 20, 30], 1, [], []⟩) := by
    have h1 : (⟨1, 65536, [0, 0, 0, 1, 10, 0, 0, 0, 2, 20, 30], 1, [], []⟩ : Transport).peekInBatch
        none =
        (.ok ([10] ::
            (⟨1, 65536, [0, 0, 0, 1, 10, 0, 0, 0, 2, 20, 30], 1, [], []⟩ : Transport).drainLoop 5),
         ⟨1, 65536, [0, 0, 0, 1, 10, 0, 0, 0, 2, 20, 30], 1, [], []⟩) := rfl
    rw [h1, hd5]
  exact ⟨hb, c5_peek_batch _ none [[10], [20, 30]] _ hb⟩

end Pbrpc
